import Mathlib

/-!
Verification of the wordnik-rs client library (src/lib.rs).

The library issues an HTTP GET for a word, parses the response body as
generic JSON, deserializes it into a list of `Definition` records
(dropping entries whose definition text is empty), and optionally renders
the records as grouped pretty text.

Shallow embedding notes:
  - JSON values are modelled by the inductive `Json`; the external
    `serde_json` parser (`serde_json::from_str`) is modelled by a fuel-based
    recursive-descent parser over the character list of the body, covering
    the JSON subset exchanged with the service (objects, arrays, strings
    with the common escapes, integers, booleans, null; floats and unicode
    escapes are outside every claim).  JSON objects are modelled as
    association lists of distinct keys, which is what a parsed
    `serde_json::Value` map provides.
  - The derived serde deserializer for `Definition`
    (`#[derive(Deserialize)]` with `#[serde(rename_all = "camelCase")]`,
    `#[serde(default, rename = "text")]` on `definition`, and
    `#[serde(default)]` on `part_of_speech`) is modelled by
    `deserializeDefinition`: every field must be a JSON string; `text` and
    `partOfSpeech` fall back to `""` when absent; the remaining five fields
    are required; unknown keys are ignored (serde's default behavior, as
    `deny_unknown_fields` is not set).
  - The HTTP transport is effectful and is abstracted as a `fetch` oracle
    mapping the request URL to a response body; transport failures
    (`TransportError`) are outside the embedding.
  - Rust's `HashMap` iteration order is unspecified; the grouping in
    `get_definitions_pretty` is modelled as an association list in
    first-insertion order.  No theorem below depends on the relative order
    of distinct groups.
-/

/-- Generic JSON values, modelling `serde_json::Value` for the shapes the
service exchanges.  Numbers are modelled as integers; no claim involves
numeric fields. -/
inductive Json where
  | null
  | bool (b : Bool)
  | num (n : Int)
  | str (s : String)
  | arr (elems : List Json)
  | obj (fields : List (String × Json))
deriving Repr

/-- Error taxonomy of the client, mirroring the distinctions the spec
draws inside the library's boxed error value: the response body is not
valid JSON (`parseError`), or the JSON does not match the expected typed
shape (`deserError`). -/
inductive WErr where
  | parseError (msg : String)
  | deserError (msg : String)
deriving Repr, DecidableEq

/-- The `Definition` struct of src/lib.rs: the API response record for a
word definition.  The Rust field `definition` is deserialized from the
JSON key `text`. -/
structure Definition where
  word : String
  definition : String
  part_of_speech : String
  attribution_text : String
  source_dictionary : String
  attribution_url : String
  wordnik_url : String
deriving Repr, DecidableEq

/-- Read a required string field from a JSON object's fields, as the
derived serde deserializer does for a `String` field without
`#[serde(default)]`: a missing key or a non-string value is an error. -/
def getStrField (fields : List (String × Json)) (name : String) : Except WErr String :=
  match fields.lookup name with
  | some (Json.str s) => Except.ok s
  | some _ => Except.error (WErr.deserError ("invalid type for field " ++ name))
  | none => Except.error (WErr.deserError ("missing field " ++ name))

/-- Read an optional string field, as serde does for a `String` field with
`#[serde(default)]`: a missing key yields `""`, a present non-string value
is still an error. -/
def getStrFieldD (fields : List (String × Json)) (name : String) : Except WErr String :=
  match fields.lookup name with
  | some (Json.str s) => Except.ok s
  | some _ => Except.error (WErr.deserError ("invalid type for field " ++ name))
  | none => Except.ok ""

/-- The derived `Deserialize` for `Definition` applied to one JSON value:
the value must be an object; keys are the camelCase names from
`#[serde(rename_all = "camelCase")]` with `definition` read from `text`;
only `text` and `partOfSpeech` carry `#[serde(default)]`; unknown keys are
ignored.  Requiredness is checked here in declaration order, whereas
serde's generated visitor type-checks each value while consuming the map
entries and checks requiredness only at the end; the two coincide exactly
on objects whose present known fields are all strings, and every
error-path theorem below stays inside that fragment. -/
def deserializeDefinition : Json → Except WErr Definition
  | Json.obj fields =>
    match getStrField fields "word" with
    | Except.error e => Except.error e
    | Except.ok w =>
      match getStrFieldD fields "text" with
      | Except.error e => Except.error e
      | Except.ok t =>
        match getStrFieldD fields "partOfSpeech" with
        | Except.error e => Except.error e
        | Except.ok p =>
          match getStrField fields "attributionText" with
          | Except.error e => Except.error e
          | Except.ok a =>
            match getStrField fields "sourceDictionary" with
            | Except.error e => Except.error e
            | Except.ok sd =>
              match getStrField fields "attributionUrl" with
              | Except.error e => Except.error e
              | Except.ok au =>
                match getStrField fields "wordnikUrl" with
                | Except.error e => Except.error e
                | Except.ok wu => Except.ok ⟨w, t, p, a, sd, au, wu⟩
  | Json.arr _ => Except.error (WErr.deserError "invalid type: sequence, expected struct Definition")
  | Json.str _ => Except.error (WErr.deserError "invalid type: string, expected struct Definition")
  | Json.num _ => Except.error (WErr.deserError "invalid type: number, expected struct Definition")
  | Json.bool _ => Except.error (WErr.deserError "invalid type: boolean, expected struct Definition")
  | Json.null => Except.error (WErr.deserError "invalid type: null, expected struct Definition")

/-- Elementwise deserialization of a JSON array's elements, in order, with
the first failure propagated — serde's sequence visitor for
`Vec<Definition>`. -/
def mapDeser : List Json → Except WErr (List Definition)
  | [] => Except.ok []
  | x :: xs =>
    match deserializeDefinition x with
    | Except.error e => Except.error e
    | Except.ok d =>
      match mapDeser xs with
      | Except.error e => Except.error e
      | Except.ok ds => Except.ok (d :: ds)

/-- Model of `serde_json::from_value::<Vec<Definition>>`: the top-level
value must be an array; a map (object) or any other shape is a
deserialization error. -/
def deserializeDefinitionList : Json → Except WErr (List Definition)
  | Json.arr xs => mapDeser xs
  | Json.obj _ => Except.error (WErr.deserError "invalid type: map, expected a sequence")
  | Json.str _ => Except.error (WErr.deserError "invalid type: string, expected a sequence")
  | Json.num _ => Except.error (WErr.deserError "invalid type: number, expected a sequence")
  | Json.bool _ => Except.error (WErr.deserError "invalid type: boolean, expected a sequence")
  | Json.null => Except.error (WErr.deserError "invalid type: null, expected a sequence")

/-- The `text` field of a JSON array element under the absence-as-empty
reading, used to count the entries `get_definitions` keeps. -/
def jsonTextOf : Json → String
  | Json.obj fields =>
    match fields.lookup "text" with
    | some (Json.str s) => s
    | _ => ""
  | _ => ""

/-- The typed stage of `Wordnik::get_definitions` applied to the parsed
response value: `serde_json::from_value` into `Vec<Definition>`, then
`definitions.retain(|def| def.definition != "")`, which keeps the
non-empty-text entries in their original order. -/
def getDefinitionsFromValue (v : Json) : Except WErr (List Definition) :=
  match deserializeDefinitionList v with
  | Except.error e => Except.error e
  | Except.ok ds => Except.ok (ds.filter (fun d => d.definition ≠ ""))

/-- Skip JSON whitespace. -/
def skipWs : List Char → List Char
  | [] => []
  | c :: rest =>
    if c = ' ' ∨ c = '\n' ∨ c = '\t' ∨ c = '\r' then skipWs rest else c :: rest

/-- Decode a single-character JSON escape. -/
def unescape (c : Char) : Option Char :=
  if c = '"' then some '"'
  else if c = '\\' then some '\\'
  else if c = '/' then some '/'
  else if c = 'n' then some '\n'
  else if c = 't' then some '\t'
  else if c = 'r' then some '\r'
  else if c = 'b' then some (Char.ofNat 8)
  else if c = 'f' then some (Char.ofNat 12)
  else none

/-- Parse the body of a JSON string literal after its opening quote,
returning the decoded string and the remaining input. -/
def parseStringBody : List Char → Option (String × List Char)
  | [] => none
  | '"' :: rest => some ("", rest)
  | '\\' :: c :: rest =>
    match unescape c with
    | none => none
    | some u =>
      match parseStringBody rest with
      | none => none
      | some (s, r) => some (String.mk (u :: s.data), r)
  | c :: rest =>
    match parseStringBody rest with
    | none => none
    | some (s, r) => some (String.mk (c :: s.data), r)

/-- Take a run of decimal digits. -/
def takeDigits : List Char → List Char × List Char
  | [] => ([], [])
  | c :: rest =>
    if c.isDigit then
      match takeDigits rest with
      | (ds, r) => (c :: ds, r)
    else ([], c :: rest)

/-- Numeric value of a digit run. -/
def digitsToNat (ds : List Char) : Nat :=
  ds.foldl (fun a c => a * 10 + (c.toNat - 48)) 0

/-- Parse a JSON integer (optional minus sign followed by digits). -/
def parseNumberTok (cs : List Char) : Option (Json × List Char) :=
  match cs with
  | '-' :: rest =>
    match takeDigits rest with
    | ([], _) => none
    | (ds, r) => some (Json.num (-(digitsToNat ds : Int)), r)
  | _ =>
    match takeDigits cs with
    | ([], _) => none
    | (ds, r) => some (Json.num (digitsToNat ds : Int), r)

mutual

/-- Fuel-based recursive-descent parser for one JSON value, modelling
`serde_json::from_str` on the JSON subset the service exchanges. -/
def parseValue : Nat → List Char → Option (Json × List Char)
  | 0, _ => none
  | Nat.succ fuel, input =>
    match skipWs input with
    | '"' :: rest =>
      match parseStringBody rest with
      | none => none
      | some (s, r) => some (Json.str s, r)
    | '\x7b' :: rest =>
      match skipWs rest with
      | '\x7d' :: r => some (Json.obj [], r)
      | rest2 => parseMembers fuel rest2
    | '[' :: rest =>
      match skipWs rest with
      | ']' :: r => some (Json.arr [], r)
      | rest2 => parseElems fuel rest2
    | 't' :: 'r' :: 'u' :: 'e' :: r => some (Json.bool true, r)
    | 'f' :: 'a' :: 'l' :: 's' :: 'e' :: r => some (Json.bool false, r)
    | 'n' :: 'u' :: 'l' :: 'l' :: r => some (Json.null, r)
    | rest => parseNumberTok rest

/-- Parse the members of a non-empty JSON object, positioned at the first
key; returns the object and the input after the closing brace. -/
def parseMembers : Nat → List Char → Option (Json × List Char)
  | 0, _ => none
  | Nat.succ fuel, input =>
    match skipWs input with
    | '"' :: rest =>
      match parseStringBody rest with
      | none => none
      | some (k, r1) =>
        match skipWs r1 with
        | ':' :: r2 =>
          match parseValue fuel r2 with
          | none => none
          | some (v, r3) =>
            match skipWs r3 with
            | ',' :: r4 =>
              match parseMembers fuel r4 with
              | some (Json.obj ms, r5) => some (Json.obj ((k, v) :: ms), r5)
              | _ => none
            | '\x7d' :: r4 => some (Json.obj [(k, v)], r4)
            | _ => none
        | _ => none
    | _ => none

/-- Parse the elements of a non-empty JSON array, positioned at the first
element; returns the array and the input after the closing bracket. -/
def parseElems : Nat → List Char → Option (Json × List Char)
  | 0, _ => none
  | Nat.succ fuel, input =>
    match parseValue fuel input with
    | none => none
    | some (v, r1) =>
      match skipWs r1 with
      | ',' :: r2 =>
        match parseElems fuel r2 with
        | some (Json.arr vs, r3) => some (Json.arr (v :: vs), r3)
        | _ => none
      | ']' :: r2 => some (Json.arr [v], r2)
      | _ => none

end

/-- Parse a full response body as generic JSON, the model of
`serde_json::from_str::<Value>` inside `make_request`. -/
def fromStr (s : String) : Except WErr Json :=
  match parseValue (s.length + 1) s.data with
  | some (v, rest) =>
    if (skipWs rest).isEmpty then Except.ok v
    else Except.error (WErr.parseError "trailing characters")
  | none => Except.error (WErr.parseError "expected value")

/-- The pure content of `Wordnik::make_request` applied to the response
body the HTTP GET produced: read the body as text and parse it as generic
JSON.  The network exchange itself is effectful and outside the
embedding. -/
def makeRequest (body : String) : Except WErr Json :=
  fromStr body

/-- The `Operation` enum of src/lib.rs. -/
inductive Operation where
  | audio
  | definitions
  | etymologies
  | examples
  | frequency
  | hyphenation
  | phrases
  | pronunciations
  | relatedWords
  | scrabbleScore
  | topExample
deriving Repr, DecidableEq

/-- The `Display` implementation for `Operation`: the wire-format path
segment of each operation. -/
def Operation.to_string : Operation → String
  | Operation.audio => "audio"
  | Operation.definitions => "definitions"
  | Operation.etymologies => "etymologies"
  | Operation.examples => "examples"
  | Operation.frequency => "frequency"
  | Operation.hyphenation => "hyphenation"
  | Operation.phrases => "phrases"
  | Operation.pronunciations => "pronunciations"
  | Operation.relatedWords => "relatedWords"
  | Operation.scrabbleScore => "scrabbleScore"
  | Operation.topExample => "topExample"

/-- The `Wordnik` struct: API key and base endpoint URL. -/
structure Wordnik where
  api_key : String
  entry : String

/-- `Wordnik::new`. -/
def Wordnik.new (api_key entry : String) : Wordnik :=
  ⟨api_key, entry⟩

/-- The request URL built inside `Wordnik::get_definitions`:
`self.entry + word + "/" + Operation::Definitions.to_string() + "?api_key=" + self.api_key`. -/
def Wordnik.definitionsUrl (w : Wordnik) (word : String) : String :=
  w.entry ++ word ++ "/" ++ Operation.definitions.to_string ++ "?api_key=" ++ w.api_key

/-- `Wordnik::get_definitions` with the HTTP exchange abstracted as a
`fetch` oracle from request URL to response body: build the URL, fetch and
parse the body, deserialize it as `Vec<Definition>`, and retain the
entries with non-empty definition text. -/
def Wordnik.get_definitions (w : Wordnik) (fetch : String → String) (word : String) :
    Except WErr (List Definition) :=
  match makeRequest (fetch (w.definitionsUrl word)) with
  | Except.error e => Except.error e
  | Except.ok v => getDefinitionsFromValue v

/-- Same pipeline starting from a response body, for claims that fix the
body rather than the URL. -/
def getDefinitionsFromBody (body : String) : Except WErr (List Definition) :=
  match makeRequest body with
  | Except.error e => Except.error e
  | Except.ok v => getDefinitionsFromValue v

/-- `Definition::to_pretty`: the definition text, preceded by the part of
speech and a space when the part of speech is non-empty, with a trailing
newline. -/
def Definition.to_pretty (d : Definition) : String :=
  if d.part_of_speech = "" then d.definition ++ "\n"
  else d.part_of_speech ++ " " ++ d.definition ++ "\n"

/-- One step of the bullet fold in `get_definitions_pretty`:
`[acc, "  * ".into(), d.to_pretty()].join("")`. -/
def bulletStep (acc : String) (d : Definition) : String :=
  String.join [acc, "  * ", d.to_pretty]

/-- The bullet fold over one group's definitions:
`definitions.iter().fold("".into(), |acc, d| ...)`. -/
def bulletsFold (ds : List Definition) : String :=
  ds.foldl bulletStep ""

/-- One iteration of the grouping loop in `get_definitions_pretty`: push
the definition onto its attribution's group if the key is already present,
otherwise insert a fresh singleton group.  The `HashMap` is modelled as an
association list in first-insertion order. -/
def insertGroup (gs : List (String × List Definition)) (d : Definition) :
    List (String × List Definition) :=
  match gs with
  | [] => [(d.attribution_text, [d])]
  | (k, v) :: rest =>
    if k = d.attribution_text then (k, v ++ [d]) :: rest
    else (k, v) :: insertGroup rest d

/-- The grouping loop of `get_definitions_pretty` over the fetched list. -/
def groupByAttribution (ds : List Definition) : List (String × List Definition) :=
  ds.foldl insertGroup []

/-- The rendering loop of `get_definitions_pretty`:
`s = s + attribution_text + "\n" + <bullet fold> + "\n"` for each group.
Rust's `HashMap::iter` order is unspecified; the groups are rendered here
in first-insertion order, and no theorem below compares distinct groups'
positions. -/
def renderGroups (gs : List (String × List Definition)) : String :=
  gs.foldl (fun s g => s ++ g.1 ++ "\n" ++ bulletsFold g.2 ++ "\n") ""

/-- The pure content of `Wordnik::get_definitions_pretty` applied to the
fetched definition list: group by attribution text, then render. -/
def definitionsPretty (ds : List Definition) : String :=
  renderGroups (groupByAttribution ds)

/-- `Wordnik::get_definitions_pretty` with the HTTP exchange abstracted as
a `fetch` oracle: any failure of `get_definitions` propagates unchanged. -/
def Wordnik.get_definitions_pretty (w : Wordnik) (fetch : String → String) (word : String) :
    Except WErr String :=
  match w.get_definitions fetch word with
  | Except.error e => Except.error e
  | Except.ok ds => Except.ok (definitionsPretty ds)

/-- One group's contribution to the rendered output: header line, bullet
lines, and the closing newline that produces the blank line after the
group. -/
def groupBlock (g : String × List Definition) : String :=
  g.1 ++ "\n" ++ bulletsFold g.2 ++ "\n"

/-- Folding string concatenation from any accumulator pulls the
accumulator out front. -/
theorem strFoldlAppendShift (l : List String) :
    ∀ s : String, List.foldl (fun r t => r ++ t) s l = s ++ List.foldl (fun r t => r ++ t) "" l := by
  induction l with
  | nil => intro s; simp
  | cons x xs ih =>
    intro s
    simp only [List.foldl_cons]
    rw [ih (s ++ x), ih ("" ++ x), String.empty_append, String.append_assoc]

/-- `String.join` peels its head element. -/
theorem strJoinCons (x : String) (l : List String) :
    String.join (x :: l) = x ++ String.join l := by
  simp only [String.join, List.foldl_cons]
  rw [strFoldlAppendShift, String.empty_append]

/-- One bullet-fold step appends the prefixed pretty line. -/
theorem bulletStep_eq (acc : String) (d : Definition) :
    bulletStep acc d = acc ++ ("  * " ++ d.to_pretty) := by
  simp only [bulletStep, String.join, List.foldl_cons, List.foldl_nil, String.empty_append,
    String.append_assoc]

/-- The bullet fold from any accumulator pulls the accumulator out front. -/
theorem bulletsFoldShift (ds : List Definition) :
    ∀ acc : String, List.foldl bulletStep acc ds = acc ++ List.foldl bulletStep "" ds := by
  induction ds with
  | nil => intro acc; simp
  | cons d t ih =>
    intro acc
    simp only [List.foldl_cons]
    rw [ih (bulletStep acc d), ih (bulletStep "" d), bulletStep_eq acc d, bulletStep_eq "" d,
      String.empty_append, String.append_assoc]

/-- The bullet fold over nothing renders nothing. -/
theorem bulletsFold_nil : bulletsFold [] = "" := rfl

/-- The bullet fold renders the head definition's bullet first. -/
theorem bulletsFold_cons (d : Definition) (ds : List Definition) :
    bulletsFold (d :: ds) = "  * " ++ d.to_pretty ++ bulletsFold ds := by
  simp only [bulletsFold, List.foldl_cons]
  rw [bulletsFoldShift, bulletStep_eq, String.empty_append]

/-- One rendering-loop step appends the group's block. -/
theorem renderStep_eq (s : String) (g : String × List Definition) :
    s ++ g.1 ++ "\n" ++ bulletsFold g.2 ++ "\n" = s ++ groupBlock g := by
  simp [groupBlock, String.append_assoc]

/-- The rendering loop from any accumulator pulls the accumulator out
front. -/
theorem renderGroupsShift (gs : List (String × List Definition)) :
    ∀ s : String,
      List.foldl (fun s g => s ++ g.1 ++ "\n" ++ bulletsFold g.2 ++ "\n") s gs =
        s ++ renderGroups gs := by
  induction gs with
  | nil => intro s; simp [renderGroups]
  | cons g t ih =>
    intro s
    simp only [renderGroups, List.foldl_cons]
    rw [ih, ih ("" ++ g.1 ++ "\n" ++ bulletsFold g.2 ++ "\n"), renderStep_eq s g,
      renderStep_eq "" g, String.empty_append, String.append_assoc]

/-- Rendering no groups yields the empty string. -/
theorem renderGroups_nil : renderGroups [] = "" := rfl

/-- Rendering peels the head group's block. -/
theorem renderGroups_cons (g : String × List Definition) (gs : List (String × List Definition)) :
    renderGroups (g :: gs) = groupBlock g ++ renderGroups gs := by
  simp only [renderGroups, List.foldl_cons]
  rw [renderGroupsShift, renderStep_eq, String.empty_append]
  rfl

/-- The rendered output is the direct concatenation of the group
blocks. -/
theorem renderGroups_eq_join (gs : List (String × List Definition)) :
    renderGroups gs = String.join (gs.map groupBlock) := by
  induction gs with
  | nil => rfl
  | cons g t ih => rw [renderGroups_cons, List.map_cons, strJoinCons, ih]

/-- A successful optional read of `text` is exactly the absence-as-empty
`text` field of the object. -/
theorem jsonTextOf_of_ok (fields : List (String × Json)) (s : String)
    (h : getStrFieldD fields "text" = Except.ok s) : jsonTextOf (Json.obj fields) = s := by
  cases hl : fields.lookup "text" with
  | none =>
    simp [getStrFieldD, hl] at h
    simp [jsonTextOf, hl, ← h]
  | some v => cases v <;> simp_all [getStrFieldD, jsonTextOf]

/-- A successfully deserialized record's `definition` field is the
object's `text` field (empty when absent). -/
theorem deser_ok_definition (o : Json) (d : Definition)
    (h : deserializeDefinition o = Except.ok d) : d.definition = jsonTextOf o := by
  cases o with
  | null => simp [deserializeDefinition] at h
  | bool b => simp [deserializeDefinition] at h
  | num n => simp [deserializeDefinition] at h
  | str s => simp [deserializeDefinition] at h
  | arr xs => simp [deserializeDefinition] at h
  | obj fields =>
    simp only [deserializeDefinition] at h
    cases h1 : getStrField fields "word" with
    | error e => rw [h1] at h; simp at h
    | ok w =>
    rw [h1] at h
    cases h2 : getStrFieldD fields "text" with
    | error e => rw [h2] at h; simp at h
    | ok t =>
    rw [h2] at h
    cases h3 : getStrFieldD fields "partOfSpeech" with
    | error e => rw [h3] at h; simp at h
    | ok p =>
    rw [h3] at h
    cases h4 : getStrField fields "attributionText" with
    | error e => rw [h4] at h; simp at h
    | ok a =>
    rw [h4] at h
    cases h5 : getStrField fields "sourceDictionary" with
    | error e => rw [h5] at h; simp at h
    | ok sd =>
    rw [h5] at h
    cases h6 : getStrField fields "attributionUrl" with
    | error e => rw [h6] at h; simp at h
    | ok au =>
    rw [h6] at h
    cases h7 : getStrField fields "wordnikUrl" with
    | error e => rw [h7] at h; simp at h
    | ok wu =>
    rw [h7] at h
    simp at h
    subst h
    exact (jsonTextOf_of_ok fields t h2).symm

/-- A successful elementwise deserialization relates the array elements to
the records pointwise, in order. -/
theorem mapDeser_ok_forall (objs : List Json) :
    ∀ ds : List Definition, mapDeser objs = Except.ok ds →
      List.Forall₂ (fun o d => deserializeDefinition o = Except.ok d) objs ds := by
  induction objs with
  | nil =>
    intro ds h
    obtain rfl : ([] : List Definition) = ds := by simpa [mapDeser] using h
    exact List.Forall₂.nil
  | cons o os ih =>
    intro ds h
    simp only [mapDeser] at h
    cases h1 : deserializeDefinition o with
    | error e => rw [h1] at h; simp at h
    | ok d =>
      rw [h1] at h
      cases h2 : mapDeser os with
      | error e => rw [h2] at h; simp at h
      | ok rest =>
        rw [h2] at h
        simp at h
        subst h
        exact List.Forall₂.cons h1 (ih rest h2)

/-- Under the pointwise relation, the records' definition texts are the
array elements' `text` fields. -/
theorem forall_map_text (objs : List Json) (ds : List Definition)
    (hf : List.Forall₂ (fun o d => deserializeDefinition o = Except.ok d) objs ds) :
    ds.map (fun d => d.definition) = objs.map jsonTextOf := by
  induction hf with
  | nil => rfl
  | cons h _ ih => simp [List.map_cons, ih, deser_ok_definition _ _ h]

/-- Keys not equal to the looked-up key are skipped. -/
theorem lookup_append_of_keys_ne (k : String) (pre rest : List (String × Json))
    (h : ∀ kv ∈ pre, kv.1 ≠ k) : List.lookup k (pre ++ rest) = List.lookup k rest := by
  induction pre with
  | nil => rfl
  | cons kv t ih =>
    obtain ⟨a, b⟩ := kv
    have hk : (k == a) = false :=
      beq_eq_false_iff_ne.mpr (Ne.symm (h (a, b) (List.mem_cons_self _ _)))
    simp only [List.cons_append, List.lookup, hk]
    exact ih (fun kv hm => h kv (List.mem_cons_of_mem _ hm))

/-- A fully populated object in the wire format, all seven known fields as
strings. -/
def baseFields (w t p a sd au wu : String) : List (String × Json) :=
  [("word", Json.str w), ("text", Json.str t), ("partOfSpeech", Json.str p),
    ("attributionText", Json.str a), ("sourceDictionary", Json.str sd),
    ("attributionUrl", Json.str au), ("wordnikUrl", Json.str wu)]

/-- The JSON keys the `Definition` deserializer reads. -/
def knownKeys : List String :=
  ["word", "text", "partOfSpeech", "attributionText", "sourceDictionary",
    "attributionUrl", "wordnikUrl"]

/-- Deserializing an object that carries the seven known fields plus
arbitrary unknown-key fields, before or after them, succeeds and yields
the record built from the known fields alone. -/
theorem deser_with_extras (pre post : List (String × Json)) (w t p a sd au wu : String)
    (hpre : ∀ kv ∈ pre, kv.1 ∉ knownKeys) :
    deserializeDefinition (Json.obj (pre ++ baseFields w t p a sd au wu ++ post)) =
      Except.ok ⟨w, t, p, a, sd, au, wu⟩ := by
  have hl : ∀ k : String, k ∈ knownKeys →
      List.lookup k (pre ++ baseFields w t p a sd au wu ++ post) =
        List.lookup k (baseFields w t p a sd au wu ++ post) := by
    intro k hk
    rw [List.append_assoc]
    exact lookup_append_of_keys_ne k pre _ (fun kv hm e => hpre kv hm (by rw [e]; exact hk))
  have l1 : List.lookup "word" (baseFields w t p a sd au wu ++ post) = some (Json.str w) := by
    simp [baseFields, List.lookup]
  have l2 : List.lookup "text" (baseFields w t p a sd au wu ++ post) = some (Json.str t) := by
    simp [baseFields, List.lookup]
  have l3 : List.lookup "partOfSpeech" (baseFields w t p a sd au wu ++ post) =
      some (Json.str p) := by
    simp [baseFields, List.lookup]
  have l4 : List.lookup "attributionText" (baseFields w t p a sd au wu ++ post) =
      some (Json.str a) := by
    simp [baseFields, List.lookup]
  have l5 : List.lookup "sourceDictionary" (baseFields w t p a sd au wu ++ post) =
      some (Json.str sd) := by
    simp [baseFields, List.lookup]
  have l6 : List.lookup "attributionUrl" (baseFields w t p a sd au wu ++ post) =
      some (Json.str au) := by
    simp [baseFields, List.lookup]
  have l7 : List.lookup "wordnikUrl" (baseFields w t p a sd au wu ++ post) =
      some (Json.str wu) := by
    simp [baseFields, List.lookup]
  simp only [deserializeDefinition, getStrField, getStrFieldD]
  rw [hl "word" (by simp [knownKeys]), l1, hl "text" (by simp [knownKeys]), l2,
    hl "partOfSpeech" (by simp [knownKeys]), l3, hl "attributionText" (by simp [knownKeys]), l4,
    hl "sourceDictionary" (by simp [knownKeys]), l5, hl "attributionUrl" (by simp [knownKeys]), l6,
    hl "wordnikUrl" (by simp [knownKeys]), l7]


/-- Pointwise-related lists have as many kept records as array elements
with non-empty `text`. -/
theorem filter_length_count (objs : List Json) (defs0 : List Definition)
    (hf : List.Forall₂ (fun o d => deserializeDefinition o = Except.ok d) objs defs0) :
    (defs0.filter (fun d => d.definition ≠ "")).length =
      objs.countP (fun o => jsonTextOf o ≠ "") := by
  induction hf with
  | nil => rfl
  | @cons o d os ds h1 _ ih =>
    have ht := deser_ok_definition _ _ h1
    by_cases hc : d.definition = ""
    case pos =>
      simp [List.filter_cons, List.countP_cons, hc, ← ht]
      simpa using ih
    case neg =>
      simp [List.filter_cons, List.countP_cons, hc, ← ht]
      simpa using ih

/-- C1: for every well-formed success response (a JSON array whose
elements all deserialize), `get_definitions` returns the list of records
with non-empty definition text; its length equals the number of array
elements with non-empty `text`; and the records correspond pointwise, in
order, to the array elements they were deserialized from. -/
theorem get_definitions_well_formed_response (objs : List Json) (defs0 : List Definition)
    (h : deserializeDefinitionList (Json.arr objs) = Except.ok defs0) :
    getDefinitionsFromValue (Json.arr objs) =
        Except.ok (defs0.filter (fun d => d.definition ≠ "")) ∧
      (defs0.filter (fun d => d.definition ≠ "")).length =
        objs.countP (fun o => jsonTextOf o ≠ "") ∧
      List.Forall₂ (fun o d => deserializeDefinition o = Except.ok d) objs defs0 := by
  have hm : mapDeser objs = Except.ok defs0 := h
  have hf := mapDeser_ok_forall objs defs0 hm
  exact ⟨by simp [getDefinitionsFromValue, h], filter_length_count objs defs0 hf, hf⟩

/-- Sample response element with non-empty text. -/
def c1obj1 : Json :=
  Json.obj (baseFields "hello" "a greeting" "noun" "WordNet" "wordnet" "u" "wn")

/-- Sample response element with empty text. -/
def c1obj2 : Json :=
  Json.obj (baseFields "hello" "" "verb" "WordNet" "wordnet" "u" "wn")

/-- Record deserialized from `c1obj1`. -/
def c1def1 : Definition := ⟨"hello", "a greeting", "noun", "WordNet", "wordnet", "u", "wn"⟩

/-- Record deserialized from `c1obj2`. -/
def c1def2 : Definition := ⟨"hello", "", "verb", "WordNet", "wordnet", "u", "wn"⟩

/-- Witness for C1 on a concrete two-element response, one element of
which has empty text. -/
theorem get_definitions_well_formed_response_witness :
    deserializeDefinitionList (Json.arr [c1obj1, c1obj2]) = Except.ok [c1def1, c1def2] ∧
      getDefinitionsFromValue (Json.arr [c1obj1, c1obj2]) =
        Except.ok ([c1def1, c1def2].filter (fun d => d.definition ≠ "")) ∧
      ([c1def1, c1def2].filter (fun d => d.definition ≠ "")).length =
        List.countP (fun o => jsonTextOf o ≠ "") [c1obj1, c1obj2] := by
  have h := get_definitions_well_formed_response [c1obj1, c1obj2] [c1def1, c1def2] rfl
  exact ⟨rfl, h.1, h.2.1⟩

/-- The observed error body for invalid credentials. -/
def invalidAuthBody : String :=
  "\x7b\"message\":\"Invalid authentication credentials\"\x7d"

/-- C2: on the body `\x7b"message":"Invalid authentication credentials"\x7d`
the raw-fetch stage succeeds and returns that value as generic JSON, while
the typed `get_definitions` stage on the same body fails with a
deserialization error (a sequence was expected, a map was received). -/
theorem invalid_auth_object_behavior :
    makeRequest invalidAuthBody =
        Except.ok (Json.obj [("message", Json.str "Invalid authentication credentials")]) ∧
      getDefinitionsFromBody invalidAuthBody =
        Except.error (WErr.deserError "invalid type: map, expected a sequence") :=
  ⟨rfl, rfl⟩

/-- Response element lacking the `word` field but carrying every other
known field. -/
def c5missingWordObj : Json :=
  Json.obj [("text", Json.str "a greeting"), ("partOfSpeech", Json.str "noun"),
    ("attributionText", Json.str "WordNet"), ("sourceDictionary", Json.str "wordnet"),
    ("attributionUrl", Json.str "u"), ("wordnikUrl", Json.str "wn")]

/-- C5 counterexample: absence of the `word` field does not default to the
empty string — deserialization of the element, and hence of the array,
fails with a missing-field error. -/
theorem missing_word_field_fails :
    deserializeDefinition c5missingWordObj =
        Except.error (WErr.deserError "missing field word") ∧
      getDefinitionsFromValue (Json.arr [c5missingWordObj]) =
        Except.error (WErr.deserError "missing field word") :=
  ⟨rfl, rfl⟩

/-- C5 amended: only `text` and `partOfSpeech` treat absence as the empty
string; each of the other five fields is required — omitting exactly one
of them from an object whose present fields are all strings makes
deserialization fail with that field's missing-field error.  Every object
below keeps all present known-field values well-typed (strings), the
fragment where serde's entry-consuming visitor raises no type error and
its end-of-map required-field check (in declaration order) reports
exactly the single absent field, agreeing with this model. -/
theorem absence_default_only_text_and_pos (w t p a sd au wu : String) :
    deserializeDefinition (Json.obj [("word", Json.str w), ("attributionText", Json.str a),
        ("sourceDictionary", Json.str sd), ("attributionUrl", Json.str au),
        ("wordnikUrl", Json.str wu)]) = Except.ok ⟨w, "", "", a, sd, au, wu⟩ ∧
      deserializeDefinition (Json.obj [("text", Json.str t), ("partOfSpeech", Json.str p),
          ("attributionText", Json.str a), ("sourceDictionary", Json.str sd),
          ("attributionUrl", Json.str au), ("wordnikUrl", Json.str wu)]) =
        Except.error (WErr.deserError "missing field word") ∧
      deserializeDefinition (Json.obj [("word", Json.str w), ("text", Json.str t),
          ("partOfSpeech", Json.str p), ("sourceDictionary", Json.str sd),
          ("attributionUrl", Json.str au), ("wordnikUrl", Json.str wu)]) =
        Except.error (WErr.deserError "missing field attributionText") ∧
      deserializeDefinition (Json.obj [("word", Json.str w), ("text", Json.str t),
          ("partOfSpeech", Json.str p), ("attributionText", Json.str a),
          ("attributionUrl", Json.str au), ("wordnikUrl", Json.str wu)]) =
        Except.error (WErr.deserError "missing field sourceDictionary") ∧
      deserializeDefinition (Json.obj [("word", Json.str w), ("text", Json.str t),
          ("partOfSpeech", Json.str p), ("attributionText", Json.str a),
          ("sourceDictionary", Json.str sd), ("wordnikUrl", Json.str wu)]) =
        Except.error (WErr.deserError "missing field attributionUrl") ∧
      deserializeDefinition (Json.obj [("word", Json.str w), ("text", Json.str t),
          ("partOfSpeech", Json.str p), ("attributionText", Json.str a),
          ("sourceDictionary", Json.str sd), ("attributionUrl", Json.str au)]) =
        Except.error (WErr.deserError "missing field wordnikUrl") :=
  ⟨rfl, rfl, rfl, rfl, rfl, rfl⟩

/-- C6: the request URL is the base entry, the word, a slash, the
operation's wire name, and the api_key query parameter, and on the spec's
concrete example it is exactly the expected URL. -/
theorem definitions_url_construction :
    (Wordnik.new "K" "https://api.example.com/v4/word.json/").definitionsUrl "hello" =
        "https://api.example.com/v4/word.json/hello/definitions?api_key=K" ∧
      ∀ api_key entry word : String,
        (Wordnik.new api_key entry).definitionsUrl word =
          entry ++ word ++ "/" ++ Operation.definitions.to_string ++ "?api_key=" ++ api_key :=
  ⟨rfl, fun _ _ _ => rfl⟩

/-- Response body that is an array of one element whose `text` is empty:
every entry is filtered out. -/
def emptyTextBody : String :=
  "[\x7b\"word\":\"hello\",\"text\":\"\",\"partOfSpeech\":\"noun\",\"attributionText\":\"WordNet\",\"sourceDictionary\":\"wordnet\",\"attributionUrl\":\"u\",\"wordnikUrl\":\"wn\"\x7d]"

set_option maxRecDepth 8192 in
/-- C9: when the fetched definition list is empty — the service returned
an empty array, or every entry was filtered out for empty text — the
pretty rendering is exactly the empty string. -/
theorem empty_definitions_pretty_empty_string :
    definitionsPretty [] = "" ∧
      getDefinitionsFromValue (Json.arr []) = Except.ok [] ∧
      (Wordnik.new "k" "https://api.example.com/v4/word.json/").get_definitions_pretty
          (fun _ => "[]") "hello" = Except.ok "" ∧
      (Wordnik.new "k" "https://api.example.com/v4/word.json/").get_definitions_pretty
          (fun _ => emptyTextBody) "hello" = Except.ok "" :=
  ⟨rfl, rfl, rfl, rfl⟩

/-- C7: a definition's rendered bullet line is the `"  * "` marker, then
the part of speech and a space when the part of speech is non-empty (and
nothing in its place when it is empty), then the definition text and a
newline. -/
theorem bullet_line_format (d : Definition) :
    (d.part_of_speech ≠ "" →
        bulletsFold [d] = "  * " ++ d.part_of_speech ++ " " ++ d.definition ++ "\n") ∧
      (d.part_of_speech = "" → bulletsFold [d] = "  * " ++ d.definition ++ "\n") := by
  constructor
  · intro h
    rw [bulletsFold_cons, bulletsFold_nil, String.append_empty, Definition.to_pretty, if_neg h]
    simp [String.append_assoc]
  · intro h
    rw [bulletsFold_cons, bulletsFold_nil, String.append_empty, Definition.to_pretty, if_pos h]
    simp [String.append_assoc]

/-- Witness for C7 on one definition with part of speech `"noun"` and one
with an empty part of speech. -/
theorem bullet_line_format_witness :
    (("noun" : String) ≠ "" ∧
        bulletsFold [⟨"hello", "a greeting", "noun", "WordNet", "wordnet", "u", "wn"⟩] =
          "  * noun a greeting\n") ∧
      bulletsFold [⟨"hello", "a greeting", "", "WordNet", "wordnet", "u", "wn"⟩] =
        "  * a greeting\n" := by
  refine ⟨⟨by decide, ?_⟩, ?_⟩
  · exact ((bullet_line_format ⟨"hello", "a greeting", "noun", "WordNet", "wordnet", "u",
      "wn"⟩).1 (by decide)).trans (by decide)
  · exact ((bullet_line_format ⟨"hello", "a greeting", "", "WordNet", "wordnet", "u",
      "wn"⟩).2 rfl).trans (by decide)

/-- C8: the list `get_definitions` returns is the subsequence of the
deserialized response consisting of the entries with non-empty text, in
the same relative order. -/
theorem filter_is_order_preserving_subsequence (objs : List Json) (defs0 : List Definition)
    (h : deserializeDefinitionList (Json.arr objs) = Except.ok defs0) :
    getDefinitionsFromValue (Json.arr objs) =
        Except.ok (defs0.filter (fun d => d.definition ≠ "")) ∧
      List.Sublist (defs0.filter (fun d => d.definition ≠ "")) defs0 ∧
      ∀ d : Definition,
        d ∈ defs0.filter (fun d => d.definition ≠ "") ↔ d ∈ defs0 ∧ d.definition ≠ "" := by
  refine ⟨by simp [getDefinitionsFromValue, h], List.filter_sublist _, ?_⟩
  intro d
  simp [List.mem_filter]

/-- Sample response element kept by the filter. -/
def c8obj1 : Json := Json.obj (baseFields "run" "to move fast" "verb" "WordNet" "wordnet" "u" "wn")

/-- Sample response element dropped by the filter. -/
def c8obj2 : Json := Json.obj (baseFields "run" "" "noun" "WordNet" "wordnet" "u" "wn")

/-- Sample response element kept by the filter, after the dropped one. -/
def c8obj3 : Json := Json.obj (baseFields "run" "a sprint" "noun" "Wiktionary" "wikt" "u" "wn")

/-- Record deserialized from `c8obj1`. -/
def c8def1 : Definition := ⟨"run", "to move fast", "verb", "WordNet", "wordnet", "u", "wn"⟩

/-- Record deserialized from `c8obj2`. -/
def c8def2 : Definition := ⟨"run", "", "noun", "WordNet", "wordnet", "u", "wn"⟩

/-- Record deserialized from `c8obj3`. -/
def c8def3 : Definition := ⟨"run", "a sprint", "noun", "Wiktionary", "wikt", "u", "wn"⟩

/-- Witness for C8 on a three-element response whose middle element is
dropped. -/
theorem filter_is_order_preserving_subsequence_witness :
    deserializeDefinitionList (Json.arr [c8obj1, c8obj2, c8obj3]) =
        Except.ok [c8def1, c8def2, c8def3] ∧
      getDefinitionsFromValue (Json.arr [c8obj1, c8obj2, c8obj3]) =
        Except.ok ([c8def1, c8def2, c8def3].filter (fun d => d.definition ≠ "")) ∧
      List.Sublist ([c8def1, c8def2, c8def3].filter (fun d => d.definition ≠ ""))
        [c8def1, c8def2, c8def3] := by
  have h := filter_is_order_preserving_subsequence [c8obj1, c8obj2, c8obj3]
    [c8def1, c8def2, c8def3] rfl
  exact ⟨rfl, h.1, h.2.1⟩

/-- C10: unknown extra fields around the known seven are ignored —
deserialization of such an element succeeds with the record built from the
known fields alone, and `get_definitions` on an array of such elements
returns the same result as without the extra fields. -/
theorem unknown_fields_ignored (pre post : List (String × Json)) (w t p a sd au wu : String)
    (hpre : ∀ kv ∈ pre, kv.1 ∉ knownKeys) (hpost : ∀ kv ∈ post, kv.1 ∉ knownKeys) :
    deserializeDefinition (Json.obj (pre ++ baseFields w t p a sd au wu ++ post)) =
        Except.ok ⟨w, t, p, a, sd, au, wu⟩ ∧
      getDefinitionsFromValue (Json.arr [Json.obj (pre ++ baseFields w t p a sd au wu ++ post)]) =
        getDefinitionsFromValue (Json.arr [Json.obj (baseFields w t p a sd au wu)]) := by
  have h1 := deser_with_extras pre post w t p a sd au wu hpre
  have h2 : deserializeDefinition (Json.obj (baseFields w t p a sd au wu)) =
      Except.ok ⟨w, t, p, a, sd, au, wu⟩ := by
    have h0 := deser_with_extras [] [] w t p a sd au wu (by simp)
    simpa using h0
  have h1a : deserializeDefinition (Json.obj (pre ++ (baseFields w t p a sd au wu ++ post))) =
      Except.ok ⟨w, t, p, a, sd, au, wu⟩ := by
    rw [← List.append_assoc]
    exact h1
  exact ⟨h1, by simp [getDefinitionsFromValue, deserializeDefinitionList, mapDeser, h1a, h2]⟩

/-- Witness for C10 with one unknown field before and one after the known
fields. -/
theorem unknown_fields_ignored_witness :
    (∀ kv ∈ ([("etymology", Json.null)] : List (String × Json)), kv.1 ∉ knownKeys) ∧
      (∀ kv ∈ ([("score", Json.num 5)] : List (String × Json)), kv.1 ∉ knownKeys) ∧
      deserializeDefinition (Json.obj ([("etymology", Json.null)] ++
          baseFields "hello" "a greeting" "noun" "WordNet" "wordnet" "u" "wn" ++
          [("score", Json.num 5)])) =
        Except.ok ⟨"hello", "a greeting", "noun", "WordNet", "wordnet", "u", "wn"⟩ := by
  have hpre : ∀ kv ∈ ([("etymology", Json.null)] : List (String × Json)), kv.1 ∉ knownKeys := by
    simp [knownKeys]
  have hpost : ∀ kv ∈ ([("score", Json.num 5)] : List (String × Json)), kv.1 ∉ knownKeys := by
    simp [knownKeys]
  exact ⟨hpre, hpost, (unknown_fields_ignored [("etymology", Json.null)] [("score", Json.num 5)]
    "hello" "a greeting" "noun" "WordNet" "wordnet" "u" "wn" hpre hpost).1⟩

/-- Every pretty line ends with a newline. -/
theorem to_pretty_shape (d : Definition) : ∃ y : String, d.to_pretty = y ++ "\n" := by
  by_cases h : d.part_of_speech = ""
  · exact ⟨d.definition, by rw [Definition.to_pretty, if_pos h]⟩
  · exact ⟨d.part_of_speech ++ " " ++ d.definition, by rw [Definition.to_pretty, if_neg h]⟩

/-- The bullet fold over a list is empty or ends with a newline. -/
theorem bulletsFold_shape (l : List Definition) :
    l = [] ∨ ∃ u : String, bulletsFold l = u ++ "\n" := by
  induction l with
  | nil => exact Or.inl rfl
  | cons d t ih =>
    right
    rw [bulletsFold_cons]
    obtain ⟨y, hy⟩ := to_pretty_shape d
    rcases ih with h | ⟨u, hu⟩
    · subst h
      rw [bulletsFold_nil, String.append_empty, hy, ← String.append_assoc]
      exact ⟨"  * " ++ y, rfl⟩
    · rw [hu, ← String.append_assoc]
      exact ⟨"  * " ++ d.to_pretty ++ u, rfl⟩

/-- Concrete definition used to refute the no-trailing-blank-line reading
of the pretty output. -/
def c4def : Definition := ⟨"hello", "a greeting", "", "WordNet", "wordnet", "u", "wn"⟩

/-- C4 counterexample: on a single-group input the pretty output is
`"WordNet\n  * a greeting\n\n"`, which ends with a blank line — a blank
line does follow the last group. -/
theorem pretty_trailing_blank_line :
    definitionsPretty [c4def] = "WordNet\n  * a greeting\n\n" ∧
      "WordNet\n  * a greeting\n\n" = "WordNet\n  * a greeting" ++ "\n" ++ "\n" :=
  ⟨rfl, rfl⟩

/-- C4 amended: the rendered groups are concatenated directly, and every
group's block ends with two newlines — the newline closing its last line
and one more — so a blank line separates consecutive groups and also
follows the last group. -/
theorem pretty_blank_line_after_every_group (ds : List Definition) :
    definitionsPretty ds = String.join ((groupByAttribution ds).map groupBlock) ∧
      ∀ g : String × List Definition, ∃ t : String, groupBlock g = t ++ "\n" ++ "\n" := by
  constructor
  · rw [definitionsPretty, renderGroups_eq_join]
  · intro g
    obtain ⟨k, v⟩ := g
    rcases bulletsFold_shape v with h | ⟨u, hu⟩
    · subst h
      exact ⟨k, by simp [groupBlock, bulletsFold_nil, String.append_empty]⟩
    · refine ⟨k ++ "\n" ++ u, ?_⟩
      simp only [groupBlock, hu]
      simp only [← String.append_assoc]

/-- C3: two fetched definitions with the same attribution text "WordNet"
and parts of speech "noun" and "verb" are grouped under exactly one
"WordNet" header, followed by their two bullet lines in fetch order. -/
theorem pretty_groups_same_attribution (def1 def2 w1 w2 sd1 sd2 au1 au2 wn1 wn2 : String) :
    groupByAttribution
        [⟨w1, def1, "noun", "WordNet", sd1, au1, wn1⟩,
          ⟨w2, def2, "verb", "WordNet", sd2, au2, wn2⟩] =
      [("WordNet",
        [⟨w1, def1, "noun", "WordNet", sd1, au1, wn1⟩,
          ⟨w2, def2, "verb", "WordNet", sd2, au2, wn2⟩])] ∧
      definitionsPretty
          [⟨w1, def1, "noun", "WordNet", sd1, au1, wn1⟩,
            ⟨w2, def2, "verb", "WordNet", sd2, au2, wn2⟩] =
        "WordNet" ++ "\n" ++ "  * noun " ++ def1 ++ "\n" ++ "  * verb " ++ def2 ++ "\n" ++ "\n" := by
  have hg : groupByAttribution
        [⟨w1, def1, "noun", "WordNet", sd1, au1, wn1⟩,
          ⟨w2, def2, "verb", "WordNet", sd2, au2, wn2⟩] =
      [("WordNet",
        [⟨w1, def1, "noun", "WordNet", sd1, au1, wn1⟩,
          ⟨w2, def2, "verb", "WordNet", sd2, au2, wn2⟩])] := by
    simp [groupByAttribution, insertGroup]
  refine ⟨hg, ?_⟩
  rw [definitionsPretty, hg, renderGroups_cons, renderGroups_nil, String.append_empty]
  simp [groupBlock, bulletsFold_cons, bulletsFold_nil, Definition.to_pretty, String.append_assoc]
  have mm : ∀ a b c x : String, a ++ (b ++ (c ++ x)) = a ++ b ++ c ++ x := by
    intro a b c x
    simp [String.append_assoc]
  rw [mm "WordNet\n" "  * " "noun ", mm "\n" "  * " "verb "]
  simp
